import Mathlib

/-!
Shallow embedding of the strategy simulation engine of
`src/src/hooks/useSimulator.ts`: the indicator pipeline pieces the claims
need (`computeSMA`, `computeStochastic`), the pure decision function
`decide`, and the execution state machine (`step`, `reset`) over the
simulator state. JavaScript numbers are modelled as rationals; indicator
warm-up gaps (`undefined`) are modelled as `Option`.
-/

namespace TradingSim

/-- Rendering helper mirroring JavaScript `Number.prototype.toFixed`:
round to `d` decimal places and print with a fixed number of digits. -/
def toFixed (d : Nat) (q : Rat) : String :=
  let scaled : Int := round (q * (10 : Rat) ^ d)
  let sign := if scaled < 0 then "-" else ""
  let n : Nat := scaled.natAbs
  let ip := n / 10 ^ d
  let fp := n % 10 ^ d
  if d = 0 then sign ++ toString ip
  else
    let fpStr := toString fp
    let pad := String.mk (List.replicate (d - fpStr.length) '0')
    sign ++ toString ip ++ "." ++ pad ++ fpStr

/-- Actions returned by the decision function. -/
inductive Action where
  | BUY
  | SELL
  | HOLD
deriving DecidableEq, Repr

/-- `'BUY' | 'SELL'`, the type tag of a recorded trade. -/
inductive TradeType where
  | BUY
  | SELL
deriving DecidableEq, Repr

/-- Result of `decide`: an action together with an explanatory reason. -/
structure Decision where
  action : Action
  reason : String
deriving DecidableEq, Repr

/-- One OHLCV bar plus its optional decorated indicator fields
(`Candle` in `useSimulator.ts`). `undefined` indicator values are `none`. -/
structure Candle where
  timestamp : String
  «open» : Rat
  high : Rat
  low : Rat
  close : Rat
  volume : Rat
  smaShort : Option Rat := none
  smaLong : Option Rat := none
  emaShort : Option Rat := none
  emaLong : Option Rat := none
  macdLine : Option Rat := none
  macdSignal : Option Rat := none
  macdHistogram : Option Rat := none
  bollingerUpper : Option Rat := none
  bollingerMiddle : Option Rat := none
  bollingerLower : Option Rat := none
  stochK : Option Rat := none
  stochD : Option Rat := none
deriving DecidableEq, Repr

instance : Inhabited Candle :=
  ⟨⟨"", 0, 0, 0, 0, 0, none, none, none, none, none, none, none, none, none, none, none, none⟩⟩

/-- `RsiPoint` of `useSimulator.ts`. -/
structure RsiPoint where
  timestamp : String
  value : Rat
deriving DecidableEq, Repr

/-- `EquityPoint` of `useSimulator.ts`. -/
structure EquityPoint where
  timestamp : String
  value : Rat
deriving DecidableEq, Repr

/-- `Trade` of `useSimulator.ts`. -/
structure Trade where
  index : Nat
  type : TradeType
  price : Rat
  reason : String
deriving DecidableEq, Repr

/-- `StrategyName` of `useSimulator.ts`. -/
inductive StrategyName where
  | SMA_CROSSOVER
  | EMA_CROSSOVER
  | RSI
  | MACD
  | BOLLINGER_BANDS
  | STOCHASTIC
  | MEAN_REVERSION
  | BUY_AND_HOLD
deriving DecidableEq, Repr

/-- The simulation-relevant part of `SimulatorState`: the fields read or
written by `decide`, `step` and `reset`. -/
structure SimState where
  candles : List Candle
  rsiSeries : List RsiPoint
  equitySeries : List EquityPoint
  trades : List Trade
  currentIndex : Nat
  cash : Rat
  shares : Rat
  lastExplanation : String
  strategyName : StrategyName
  portfolioValue : Rat
deriving DecidableEq, Repr

/-- The trailing window of (at most) `k` samples ending at index `i`:
`values.slice(i - k + 1, i + 1)` for an in-range `i`. -/
def windowSlice (xs : List Rat) (i k : Nat) : List Rat :=
  (xs.take (i + 1)).drop (i + 1 - k)

/-- `Math.max(...)` over a sample list (the lists it is applied to in the
source are the nonempty trailing windows). -/
def listMax : List Rat → Rat
  | [] => 0
  | x :: xs => xs.foldl max x

/-- `Math.min(...)` over a sample list. -/
def listMin : List Rat → Rat
  | [] => 0
  | x :: xs => xs.foldl min x

/-- `computeSMA`: the running-sum loop emits, at each index `i ≥ window-1`,
the mean of the trailing `window` samples; earlier indices are undefined. -/
def computeSMA (values : List Rat) (window : Nat) : List (Option Rat) :=
  (List.range values.length).map fun i =>
    if window ≤ i + 1 then some ((windowSlice values i window).sum / (window : Rat))
    else none

/-- Entry `i` of the stochastic `%K` series: defined from index
`kPeriod - 1` on; `(close - lowestLow) / (highestHigh - lowestLow) * 100`,
or `50` when the trailing window has no range. -/
def stochKAt (highs lows closes : List Rat) (kPeriod i : Nat) : Option Rat :=
  if kPeriod ≤ i + 1 then
    let highest := listMax (windowSlice highs i kPeriod)
    let lowest := listMin (windowSlice lows i kPeriod)
    if highest ≠ lowest then
      some ((closes.getD i 0 - lowest) / (highest - lowest) * 100)
    else some 50
  else none

/-- Re-expansion of a compacted series back onto the original index
positions: the `dIndex` walk of `computeStochastic` (and of `computeMACD`). -/
def expandByMask : List (Option Rat) → List (Option Rat) → List (Option Rat)
  | [], _ => []
  | none :: rest, vals => none :: expandByMask rest vals
  | some _ :: rest, vals => vals.headD none :: expandByMask rest vals.tail

/-- `computeStochastic`: the `%K` series and the `%D` series (the SMA of
the compacted `%K` values, re-expanded onto the original positions). -/
def computeStochastic (highs lows closes : List Rat) (kPeriod dPeriod : Nat) :
    List (Option Rat) × List (Option Rat) :=
  let stochK := (List.range closes.length).map (stochKAt highs lows closes kPeriod)
  let stochD := expandByMask stochK (computeSMA (stochK.filterMap id) dPeriod)
  (stochK, stochD)

/-- `candles[idx - 1]` of the source: `undefined` at `idx = 0` (JavaScript
index `-1`), otherwise the candle at `idx - 1` when it exists. -/
def prevCandle (candles : List Candle) (idx : Nat) : Option Candle :=
  if idx = 0 then none else candles[idx - 1]?

/-- The pure decision function `decide(strategy, idx, candles, rsi)`. -/
def decide (strategy : StrategyName) (idx : Nat) (candles : List Candle)
    (rsi : List Rat) : Decision :=
  match candles[idx]? with
  | none => ⟨Action.HOLD, "No candle"⟩
  | some c =>
    let prev := prevCandle candles idx
    match strategy with
    | StrategyName.SMA_CROSSOVER =>
      match c.smaShort, c.smaLong, prev.bind Candle.smaShort, prev.bind Candle.smaLong with
      | some cs, some cl, some ps, some pl =>
        if ps ≤ pl ∧ cl < cs then
          ⟨Action.BUY, "SMA bullish crossover (" ++ toFixed 2 cs ++ " crosses above " ++ toFixed 2 cl ++ ")"⟩
        else if pl ≤ ps ∧ cs < cl then
          ⟨Action.SELL, "SMA bearish crossover (" ++ toFixed 2 cs ++ " crosses below " ++ toFixed 2 cl ++ ")"⟩
        else ⟨Action.HOLD, "No SMA crossover signal"⟩
      | _, _, _, _ => ⟨Action.HOLD, "No SMA crossover signal"⟩
    | StrategyName.EMA_CROSSOVER =>
      match c.emaShort, c.emaLong, prev.bind Candle.emaShort, prev.bind Candle.emaLong with
      | some cs, some cl, some ps, some pl =>
        if ps ≤ pl ∧ cl < cs then
          ⟨Action.BUY, "EMA bullish crossover (" ++ toFixed 2 cs ++ " crosses above " ++ toFixed 2 cl ++ ")"⟩
        else if pl ≤ ps ∧ cs < cl then
          ⟨Action.SELL, "EMA bearish crossover (" ++ toFixed 2 cs ++ " crosses below " ++ toFixed 2 cl ++ ")"⟩
        else ⟨Action.HOLD, "No EMA crossover signal"⟩
      | _, _, _, _ => ⟨Action.HOLD, "No EMA crossover signal"⟩
    | StrategyName.RSI =>
      match rsi[idx]? with
      | some value =>
        if value < 30 then
          ⟨Action.BUY, "RSI oversold signal (" ++ toFixed 1 value ++ " < 30)"⟩
        else if 70 < value then
          ⟨Action.SELL, "RSI overbought signal (" ++ toFixed 1 value ++ " > 70)"⟩
        else ⟨Action.HOLD, "RSI neutral (" ++ toFixed 1 value ++ ")"⟩
      -- out-of-range index: both JavaScript comparisons with `undefined`
      -- are false, so the strategy holds (callers keep `rsi` aligned with
      -- the candle series)
      | none => ⟨Action.HOLD, "RSI neutral"⟩
    | StrategyName.MACD =>
      match c.macdLine, c.macdSignal, prev.bind Candle.macdLine, prev.bind Candle.macdSignal with
      | some cl, some cs, some pl, some ps =>
        if pl ≤ ps ∧ cs < cl then
          ⟨Action.BUY, "MACD bullish crossover (" ++ toFixed 3 cl ++ " > " ++ toFixed 3 cs ++ ")"⟩
        else if ps ≤ pl ∧ cl < cs then
          ⟨Action.SELL, "MACD bearish crossover (" ++ toFixed 3 cl ++ " < " ++ toFixed 3 cs ++ ")"⟩
        else ⟨Action.HOLD, "No MACD crossover signal"⟩
      | _, _, _, _ => ⟨Action.HOLD, "No MACD crossover signal"⟩
    | StrategyName.BOLLINGER_BANDS =>
      match c.bollingerUpper, c.bollingerLower with
      | some u, some l =>
        if c.close ≤ l then
          ⟨Action.BUY, "Price at lower Bollinger Band (" ++ toFixed 2 c.close ++ " ≤ " ++ toFixed 2 l ++ ")"⟩
        else if u ≤ c.close then
          ⟨Action.SELL, "Price at upper Bollinger Band (" ++ toFixed 2 c.close ++ " ≥ " ++ toFixed 2 u ++ ")"⟩
        else ⟨Action.HOLD, "Price within Bollinger Bands"⟩
      | _, _ => ⟨Action.HOLD, "Price within Bollinger Bands"⟩
    | StrategyName.STOCHASTIC =>
      match c.stochK, c.stochD with
      | some k, some d =>
        if k < 20 ∧ d < 20 then
          ⟨Action.BUY, "Stochastic oversold (%K: " ++ toFixed 1 k ++ ", %D: " ++ toFixed 1 d ++ ")"⟩
        else if 80 < k ∧ 80 < d then
          ⟨Action.SELL, "Stochastic overbought (%K: " ++ toFixed 1 k ++ ", %D: " ++ toFixed 1 d ++ ")"⟩
        else ⟨Action.HOLD, "Stochastic in neutral range"⟩
      | _, _ => ⟨Action.HOLD, "Stochastic in neutral range"⟩
    | StrategyName.MEAN_REVERSION =>
      match c.bollingerMiddle with
      | some m =>
        let deviation := (c.close - m) / m * 100
        if deviation < -2 then
          ⟨Action.BUY, "Price below MA by " ++ toFixed 1 (abs deviation) ++ "% - mean reversion buy"⟩
        else if 2 < deviation then
          ⟨Action.SELL, "Price above MA by " ++ toFixed 1 deviation ++ "% - mean reversion sell"⟩
        else ⟨Action.HOLD, "Price near moving average"⟩
      | none => ⟨Action.HOLD, "Price near moving average"⟩
    | StrategyName.BUY_AND_HOLD =>
      if idx = 0 then ⟨Action.BUY, "Initial buy and hold"⟩
      else ⟨Action.HOLD, "Hold position"⟩

/-- The decision `step()` obtains for the target index `i + 1`. -/
def nextDecision (s : SimState) : Decision :=
  decide s.strategyName (s.currentIndex + 1) s.candles (s.rsiSeries.map fun r => r.value)

/-- `price`: the close of the candle at the target index `i + 1`. -/
def nextPrice (s : SimState) : Rat :=
  (s.candles.getD (s.currentIndex + 1) default).close

/-- The timestamp of the candle at the target index `i + 1`. -/
def nextTs (s : SimState) : String :=
  (s.candles.getD (s.currentIndex + 1) default).timestamp

/-- `qty = Math.floor(cash / price)`: full-lot BUY sizing. Faithful to the
source for `price ≠ 0` only: rational division yields `cash / 0 = 0` here,
whereas JavaScript computes `Math.floor(cash / 0) = Infinity` for positive
cash and corrupts the ledger. That divergent zero-price path is modelled
separately, with IEEE-style number semantics, by the `JSNum` operations
below. -/
def buyQty (s : SimState) : Int := ⌊s.cash / nextPrice s⌋

/-- The body of `step()` past the at-end early return: obtain the decision
for the next index, apply the BUY/SELL/HOLD ledger mutation, append one
equity point, advance the index. -/
def stepBody (s : SimState) : SimState :=
  let nextIndex := s.currentIndex + 1
  let decision := nextDecision s
  let price := nextPrice s
  let ts := nextTs s
  if decision.action = Action.BUY ∧ price ≤ s.cash then
    let qty : Int := buyQty s
    if 0 < qty then
      let newCash := s.cash - qty * price
      let newShares := s.shares + qty
      { s with
        currentIndex := nextIndex
        cash := newCash
        shares := newShares
        trades := s.trades ++ [⟨nextIndex, TradeType.BUY, price, decision.reason⟩]
        lastExplanation := "BUY " ++ toString qty ++ " @ $" ++ toFixed 2 price ++ " — " ++ decision.reason
        portfolioValue := newCash + newShares * price
        equitySeries := s.equitySeries ++ [⟨ts, newCash + newShares * price⟩] }
    else
      { s with
        currentIndex := nextIndex
        lastExplanation := decision.reason
        portfolioValue := s.cash + s.shares * price
        equitySeries := s.equitySeries ++ [⟨ts, s.cash + s.shares * price⟩] }
  else if decision.action = Action.SELL ∧ 0 < s.shares then
    let newCash := s.cash + s.shares * price
    { s with
      currentIndex := nextIndex
      cash := newCash
      shares := 0
      trades := s.trades ++ [⟨nextIndex, TradeType.SELL, price, decision.reason⟩]
      lastExplanation := "SELL " ++ toString s.shares ++ " @ $" ++ toFixed 2 price ++ " — " ++ decision.reason
      portfolioValue := newCash + 0 * price
      equitySeries := s.equitySeries ++ [⟨ts, newCash + 0 * price⟩] }
  else
    { s with
      currentIndex := nextIndex
      lastExplanation := decision.reason
      portfolioValue := s.cash + s.shares * price
      equitySeries := s.equitySeries ++ [⟨ts, s.cash + s.shares * price⟩] }

/-- `step()`: no-op when the current index is already at (or past) the last
candle (`currentIndex >= candles.length - 1`), otherwise `stepBody`. -/
def step (s : SimState) : SimState :=
  if s.candles.length ≤ s.currentIndex + 1 then s else stepBody s

/-- The warm-up start index recomputed by `reset()`: the first index where
both the short and long SMA are defined, or `0` when there is none. -/
def warmupStart (candles : List Candle) : Nat :=
  match candles.findIdx? (fun c => c.smaShort.isSome && c.smaLong.isSome) with
  | some i => i
  | none => 0

/-- `reset()`: restore the ledger to the initial capital and reseed the
equity series with one point at the warm-up start index (empty candle
series: empty equity series). -/
def reset (s : SimState) : SimState :=
  let startIndex := warmupStart s.candles
  { s with
    currentIndex := startIndex
    trades := []
    cash := 10000
    shares := 0
    lastExplanation := ""
    portfolioValue := 10000
    equitySeries :=
      if s.candles.length ≠ 0 then
        [⟨(s.candles.getD startIndex default).timestamp, 10000⟩]
      else [] }

/-- Whether both indicator projections `f`, `g` are defined on the candle
at `idx` and on the previous candle (false when either candle is absent):
the guard of the crossover strategies. -/
def crossInputsDefined (f g : Candle → Option Rat) (candles : List Candle) (idx : Nat) : Bool :=
  match candles[idx]?, prevCandle candles idx with
  | some c, some p => (f c).isSome && (g c).isSome && (f p).isSome && (g p).isSome
  | _, _ => false

/-- A zero-price candle pair: all prices 0, with degenerate Bollinger
bands (`upper = middle = lower = 0`) decorated on the target candle, as
the indicator pipeline produces for an all-zero-close series. At index 1
the Bollinger strategy decides BUY (`close 0 ≤ lower band 0`) while the
price is 0. -/
def zeroPriceCandles : List Candle :=
  [{ timestamp := "t0", «open» := 0, high := 0, low := 0, close := 0, volume := 0 },
   { timestamp := "t1", «open» := 0, high := 0, low := 0, close := 0, volume := 0,
     bollingerUpper := some 0, bollingerMiddle := some 0, bollingerLower := some 0 }]

/-- Concrete state for the SELL scenario: 50 shares held, a bearish SMA
crossover at index 1 with close 80. -/
def sellState : SimState :=
  { candles :=
      [{ timestamp := "t0", «open» := 100, high := 105, low := 95, close := 100, volume := 1,
         smaShort := some 3, smaLong := some 2 },
       { timestamp := "t1", «open» := 85, high := 90, low := 75, close := 80, volume := 1,
         smaShort := some 1, smaLong := some 2 }],
    rsiSeries := [], equitySeries := [], trades := [], currentIndex := 0, cash := 500,
    shares := 50, lastExplanation := "",
    strategyName := StrategyName.SMA_CROSSOVER, portfolioValue := 4500 }

/-- Concrete state already at the last candle (index 0 of a one-candle
series). -/
def atEndState : SimState :=
  { candles :=
      [{ timestamp := "t0", «open» := 10, high := 11, low := 9, close := 10, volume := 1 }],
    rsiSeries := [], equitySeries := [⟨"t0", 10000⟩],
    trades := [⟨0, TradeType.BUY, 10, "r"⟩], currentIndex := 0, cash := 3, shares := 7,
    lastExplanation := "x", strategyName := StrategyName.RSI, portfolioValue := 73 }

/-- Concrete mid-series state for the equity-append scenario (Buy & Hold,
so the step is a plain HOLD). -/
def advanceState : SimState :=
  { candles :=
      [{ timestamp := "t0", «open» := 10, high := 11, low := 9, close := 10, volume := 1 },
       { timestamp := "t1", «open» := 12, high := 13, low := 11, close := 12, volume := 1 }],
    rsiSeries := [], equitySeries := [⟨"t0", 10000⟩], trades := [], currentIndex := 0,
    cash := 10000, shares := 0, lastExplanation := "",
    strategyName := StrategyName.BUY_AND_HOLD, portfolioValue := 10000 }

/-- Concrete state with an empty candle series but a dirty portfolio. -/
def emptyState : SimState :=
  { candles := [], rsiSeries := [], equitySeries := [⟨"e", 5⟩],
    trades := [⟨2, TradeType.SELL, 3, "r"⟩], currentIndex := 4, cash := 1, shares := 2,
    lastExplanation := "y", strategyName := StrategyName.MACD, portfolioValue := 7 }

/-- Concrete state with one fully decorated candle, for the reset
seed-point scenario. -/
def resetState : SimState :=
  { candles :=
      [{ timestamp := "t0", «open» := 1, high := 2, low := 1, close := 2, volume := 1,
         smaShort := some 1, smaLong := some 1 }],
    rsiSeries := [], equitySeries := [⟨"old", 1⟩], trades := [⟨0, TradeType.BUY, 1, "r"⟩],
    currentIndex := 0, cash := 42, shares := 3, lastExplanation := "z",
    strategyName := StrategyName.SMA_CROSSOVER, portfolioValue := 45 }

/-- Concrete Buy & Hold state with a three-candle series and a dirty
portfolio. -/
def bahState : SimState :=
  { candles :=
      [{ timestamp := "t0", «open» := 10, high := 11, low := 9, close := 10, volume := 1 },
       { timestamp := "t1", «open» := 12, high := 13, low := 11, close := 12, volume := 1 },
       { timestamp := "t2", «open» := 14, high := 15, low := 13, close := 14, volume := 1 }],
    rsiSeries := [], equitySeries := [⟨"t0", 9⟩], trades := [⟨1, TradeType.BUY, 12, "r"⟩],
    currentIndex := 1, cash := 5, shares := 6, lastExplanation := "w",
    strategyName := StrategyName.BUY_AND_HOLD, portfolioValue := 77 }

/-- First of two states agreeing on series and strategy but not on the
portfolio, for the determinism scenario. -/
def replayStateA : SimState :=
  { candles :=
      [{ timestamp := "t0", «open» := 10, high := 11, low := 9, close := 10, volume := 1,
         smaShort := some 1, smaLong := some 2 },
       { timestamp := "t1", «open» := 12, high := 13, low := 11, close := 12, volume := 1,
         smaShort := some 3, smaLong := some 2 }],
    rsiSeries := [⟨"t0", 50⟩, ⟨"t1", 50⟩], equitySeries := [⟨"t0", 10000⟩], trades := [],
    currentIndex := 0, cash := 10000, shares := 0, lastExplanation := "",
    strategyName := StrategyName.SMA_CROSSOVER, portfolioValue := 10000 }

/-- Second determinism-scenario state: same candles, RSI series and
strategy as the first, different portfolio and history. -/
def replayStateB : SimState :=
  { candles :=
      [{ timestamp := "t0", «open» := 10, high := 11, low := 9, close := 10, volume := 1,
         smaShort := some 1, smaLong := some 2 },
       { timestamp := "t1", «open» := 12, high := 13, low := 11, close := 12, volume := 1,
         smaShort := some 3, smaLong := some 2 }],
    rsiSeries := [⟨"t0", 50⟩, ⟨"t1", 50⟩], equitySeries := [⟨"x", 1⟩, ⟨"y", 2⟩],
    trades := [⟨1, TradeType.SELL, 9, "q"⟩], currentIndex := 1, cash := 123, shares := 4,
    lastExplanation := "v", strategyName := StrategyName.SMA_CROSSOVER, portfolioValue := 3 }

/-!
## JavaScript number semantics for the zero-price BUY path

The source performs its ledger arithmetic on IEEE-754 doubles. The rational
model above is exact for those operations whenever no division by zero
occurs; the one place the two diverge is `Math.floor(cash / price)` at
`price = 0`. The following type models JavaScript numbers as exact
rationals extended with `Infinity`, `-Infinity` and `NaN` (rationals have
no signed zero; the source path in question only produces `+0`), with the
IEEE rules for the operations `step()` uses, so the divergent path can be
evaluated faithfully.
-/

/-- A JavaScript number: a finite (here exact rational) value, an infinity,
or `NaN`. -/
inductive JSNum where
  | fin (q : Rat)
  | posInf
  | negInf
  | nan
deriving DecidableEq, Repr

/-- IEEE division: finite by zero gives an infinity (or `NaN` for `0/0`),
`NaN` propagates. -/
def jsDiv : JSNum → JSNum → JSNum
  | JSNum.nan, _ => JSNum.nan
  | _, JSNum.nan => JSNum.nan
  | JSNum.fin a, JSNum.fin b =>
    if b = 0 then
      if a = 0 then JSNum.nan
      else if 0 < a then JSNum.posInf
      else JSNum.negInf
    else JSNum.fin (a / b)
  | JSNum.fin _, JSNum.posInf => JSNum.fin 0
  | JSNum.fin _, JSNum.negInf => JSNum.fin 0
  | JSNum.posInf, JSNum.fin b => if 0 ≤ b then JSNum.posInf else JSNum.negInf
  | JSNum.negInf, JSNum.fin b => if 0 ≤ b then JSNum.negInf else JSNum.posInf
  | JSNum.posInf, JSNum.posInf => JSNum.nan
  | JSNum.posInf, JSNum.negInf => JSNum.nan
  | JSNum.negInf, JSNum.posInf => JSNum.nan
  | JSNum.negInf, JSNum.negInf => JSNum.nan

/-- IEEE multiplication: an infinity times zero is `NaN`, `NaN` propagates. -/
def jsMul : JSNum → JSNum → JSNum
  | JSNum.nan, _ => JSNum.nan
  | _, JSNum.nan => JSNum.nan
  | JSNum.fin a, JSNum.fin b => JSNum.fin (a * b)
  | JSNum.posInf, JSNum.fin b =>
    if b = 0 then JSNum.nan else if 0 < b then JSNum.posInf else JSNum.negInf
  | JSNum.fin a, JSNum.posInf =>
    if a = 0 then JSNum.nan else if 0 < a then JSNum.posInf else JSNum.negInf
  | JSNum.negInf, JSNum.fin b =>
    if b = 0 then JSNum.nan else if 0 < b then JSNum.negInf else JSNum.posInf
  | JSNum.fin a, JSNum.negInf =>
    if a = 0 then JSNum.nan else if 0 < a then JSNum.negInf else JSNum.posInf
  | JSNum.posInf, JSNum.posInf => JSNum.posInf
  | JSNum.negInf, JSNum.negInf => JSNum.posInf
  | JSNum.posInf, JSNum.negInf => JSNum.negInf
  | JSNum.negInf, JSNum.posInf => JSNum.negInf

/-- IEEE subtraction: `NaN` propagates, same-signed infinities cancel to
`NaN`. -/
def jsSub : JSNum → JSNum → JSNum
  | JSNum.nan, _ => JSNum.nan
  | _, JSNum.nan => JSNum.nan
  | JSNum.fin a, JSNum.fin b => JSNum.fin (a - b)
  | JSNum.fin _, JSNum.posInf => JSNum.negInf
  | JSNum.fin _, JSNum.negInf => JSNum.posInf
  | JSNum.posInf, JSNum.posInf => JSNum.nan
  | JSNum.negInf, JSNum.negInf => JSNum.nan
  | JSNum.posInf, _ => JSNum.posInf
  | JSNum.negInf, _ => JSNum.negInf

/-- IEEE addition: `NaN` propagates, opposite infinities give `NaN`. -/
def jsAdd : JSNum → JSNum → JSNum
  | JSNum.nan, _ => JSNum.nan
  | _, JSNum.nan => JSNum.nan
  | JSNum.fin a, JSNum.fin b => JSNum.fin (a + b)
  | JSNum.posInf, JSNum.negInf => JSNum.nan
  | JSNum.negInf, JSNum.posInf => JSNum.nan
  | JSNum.posInf, _ => JSNum.posInf
  | _, JSNum.posInf => JSNum.posInf
  | JSNum.negInf, _ => JSNum.negInf
  | _, JSNum.negInf => JSNum.negInf

/-- `Math.floor`: identity on infinities and `NaN`. -/
def jsFloor : JSNum → JSNum
  | JSNum.fin q => JSNum.fin ((⌊q⌋ : Int) : Rat)
  | x => x

/-- The `<` comparison: any comparison with `NaN` is false. -/
def jsLt : JSNum → JSNum → Bool
  | JSNum.nan, _ => false
  | _, JSNum.nan => false
  | JSNum.fin a, JSNum.fin b => if a < b then true else false
  | JSNum.fin _, JSNum.posInf => true
  | JSNum.fin _, JSNum.negInf => false
  | JSNum.posInf, _ => false
  | JSNum.negInf, JSNum.negInf => false
  | JSNum.negInf, _ => true

/-- The `<=` comparison: any comparison with `NaN` is false. -/
def jsLe : JSNum → JSNum → Bool
  | JSNum.nan, _ => false
  | _, JSNum.nan => false
  | JSNum.fin a, JSNum.fin b => if a ≤ b then true else false
  | JSNum.fin _, JSNum.posInf => true
  | JSNum.fin _, JSNum.negInf => false
  | JSNum.posInf, JSNum.posInf => true
  | JSNum.posInf, _ => false
  | JSNum.negInf, _ => true

/-! ## Characterization lemmas for `step` -/

lemma step_eq_stepBody {s : SimState} (h : s.currentIndex + 1 < s.candles.length) :
    step s = stepBody s := by
  unfold step
  rw [if_neg (by omega)]

lemma stepBody_buy_pos {s : SimState} (hdec : (nextDecision s).action = Action.BUY)
    (hcash : nextPrice s ≤ s.cash) (hqty : 0 < buyQty s) :
    stepBody s =
      { s with
        currentIndex := s.currentIndex + 1
        cash := s.cash - buyQty s * nextPrice s
        shares := s.shares + buyQty s
        trades := s.trades ++
          [⟨s.currentIndex + 1, TradeType.BUY, nextPrice s, (nextDecision s).reason⟩]
        lastExplanation := "BUY " ++ toString (buyQty s) ++ " @ $" ++
          toFixed 2 (nextPrice s) ++ " — " ++ (nextDecision s).reason
        portfolioValue := s.cash - buyQty s * nextPrice s +
          (s.shares + buyQty s) * nextPrice s
        equitySeries := s.equitySeries ++
          [⟨nextTs s, s.cash - buyQty s * nextPrice s +
            (s.shares + buyQty s) * nextPrice s⟩] } := by
  simp only [stepBody]
  rw [if_pos ⟨hdec, hcash⟩, if_pos hqty]

lemma stepBody_buy_zero {s : SimState} (hdec : (nextDecision s).action = Action.BUY)
    (hcash : nextPrice s ≤ s.cash) (hqty : buyQty s ≤ 0) :
    stepBody s =
      { s with
        currentIndex := s.currentIndex + 1
        lastExplanation := (nextDecision s).reason
        portfolioValue := s.cash + s.shares * nextPrice s
        equitySeries := s.equitySeries ++
          [⟨nextTs s, s.cash + s.shares * nextPrice s⟩] } := by
  simp only [stepBody]
  rw [if_pos ⟨hdec, hcash⟩, if_neg (not_lt.mpr hqty)]

lemma stepBody_sell {s : SimState} (hdec : (nextDecision s).action = Action.SELL)
    (hsh : 0 < s.shares) :
    stepBody s =
      { s with
        currentIndex := s.currentIndex + 1
        cash := s.cash + s.shares * nextPrice s
        shares := 0
        trades := s.trades ++
          [⟨s.currentIndex + 1, TradeType.SELL, nextPrice s, (nextDecision s).reason⟩]
        lastExplanation := "SELL " ++ toString s.shares ++ " @ $" ++
          toFixed 2 (nextPrice s) ++ " — " ++ (nextDecision s).reason
        portfolioValue := s.cash + s.shares * nextPrice s + 0 * nextPrice s
        equitySeries := s.equitySeries ++
          [⟨nextTs s, s.cash + s.shares * nextPrice s + 0 * nextPrice s⟩] } := by
  simp only [stepBody]
  rw [if_neg (by rw [hdec]; rintro ⟨h, -⟩; cases h), if_pos ⟨hdec, hsh⟩]

lemma stepBody_noTrade {s : SimState}
    (h1 : ¬((nextDecision s).action = Action.BUY ∧ nextPrice s ≤ s.cash))
    (h2 : ¬((nextDecision s).action = Action.SELL ∧ 0 < s.shares)) :
    stepBody s =
      { s with
        currentIndex := s.currentIndex + 1
        lastExplanation := (nextDecision s).reason
        portfolioValue := s.cash + s.shares * nextPrice s
        equitySeries := s.equitySeries ++
          [⟨nextTs s, s.cash + s.shares * nextPrice s⟩] } := by
  simp only [stepBody]
  rw [if_neg h1, if_neg h2]

lemma step_candles (s : SimState) : (step s).candles = s.candles := by
  unfold step
  split
  · rfl
  · simp only [stepBody]
    split
    · split <;> rfl
    · split <;> rfl

lemma step_rsiSeries (s : SimState) : (step s).rsiSeries = s.rsiSeries := by
  unfold step
  split
  · rfl
  · simp only [stepBody]
    split
    · split <;> rfl
    · split <;> rfl

lemma step_strategyName (s : SimState) : (step s).strategyName = s.strategyName := by
  unfold step
  split
  · rfl
  · simp only [stepBody]
    split
    · split <;> rfl
    · split <;> rfl

/-! ## Claims -/

/-- Claim C1 (code bug): the BUY branch is not protected against a
zero-price candle. At the concrete failing input — a decorated zero-price
series where the Bollinger strategy decides BUY at index 1 with
`cash = 10000 ≥ 0 = price` — the source's own number semantics compute
`qty = Math.floor(10000 / 0) = Infinity`, which passes the `qty > 0`
guard, so a BUY trade is appended while `cash` becomes
`10000 − Infinity·0 = NaN` and `shares` becomes `0 + Infinity = Infinity`,
instead of the exact debit/credit or silent no-op the claim (and spec)
describe. -/
theorem step_buy_zero_price_bug :
    (decide StrategyName.BOLLINGER_BANDS 1 zeroPriceCandles []).action = Action.BUY ∧
    jsLt (JSNum.fin 0) (jsFloor (jsDiv (JSNum.fin 10000) (JSNum.fin 0))) = true ∧
    jsSub (JSNum.fin 10000)
      (jsMul (jsFloor (jsDiv (JSNum.fin 10000) (JSNum.fin 0))) (JSNum.fin 0)) = JSNum.nan ∧
    jsAdd (JSNum.fin 0) (jsFloor (jsDiv (JSNum.fin 10000) (JSNum.fin 0))) = JSNum.posInf := by
  refine ⟨by decide, by decide, by decide, by decide⟩

/-- Claim C2: when the target index `i+1` is in range and the decision
there is SELL with `shares > 0`, `step` credits cash by exactly
`shares·price`, appends exactly one SELL trade at index `i+1`, and sets
`shares` to 0 (full liquidation). -/
theorem step_sell_spec (s : SimState)
    (h : s.currentIndex + 1 < s.candles.length)
    (hdec : (nextDecision s).action = Action.SELL)
    (hsh : 0 < s.shares) :
    (step s).cash = s.cash + s.shares * nextPrice s ∧
    (step s).shares = 0 ∧
    (step s).trades = s.trades ++
      [⟨s.currentIndex + 1, TradeType.SELL, nextPrice s, (nextDecision s).reason⟩] := by
  rw [step_eq_stepBody h, stepBody_sell hdec hsh]
  exact ⟨rfl, rfl, rfl⟩

/-- Witness for C2: the concrete scenario `shares = 50`, `price = 80`,
SELL decision: cash increases by 4000, shares become 0, one SELL trade. -/
theorem step_sell_spec_witness :
    (step sellState).cash = sellState.cash + 4000 ∧ (step sellState).shares = 0 ∧
    (step sellState).trades.length = 1 := by
  have h := step_sell_spec sellState (by decide) (by decide) (by decide)
  obtain ⟨h1, h2, h3⟩ := h
  have hp : nextPrice sellState = 80 := by decide
  refine ⟨?_, h2, ?_⟩
  · rw [h1, hp]; norm_num [sellState]
  · rw [h3]; simp [sellState]

/-- Claim C5: when the current index is already at (or past) the last
candle, `step` leaves the entire state unchanged. -/
theorem step_at_end_noop (s : SimState) (h : s.candles.length ≤ s.currentIndex + 1) :
    step s = s := by
  unfold step
  exact if_pos h

/-- Witness for C5: a state sitting at the single candle of its series is
untouched by `step`. -/
theorem step_at_end_noop_witness : step atEndState = atEndState :=
  step_at_end_noop atEndState (by decide)

/-- Claim C6: every non-no-op `step` appends exactly one equity point whose
value is the post-step `cash + shares·price` and whose timestamp is the new
candle's, and advances the current index to exactly `i+1`. -/
theorem step_advance_equity (s : SimState) (h : s.currentIndex + 1 < s.candles.length) :
    (step s).currentIndex = s.currentIndex + 1 ∧
    (step s).equitySeries = s.equitySeries ++
      [⟨nextTs s, (step s).cash + (step s).shares * nextPrice s⟩] := by
  rw [step_eq_stepBody h]
  by_cases h1 : (nextDecision s).action = Action.BUY ∧ nextPrice s ≤ s.cash
  · by_cases h2 : 0 < buyQty s
    · rw [stepBody_buy_pos h1.1 h1.2 h2]
      exact ⟨rfl, rfl⟩
    · rw [stepBody_buy_zero h1.1 h1.2 (not_lt.mp h2)]
      exact ⟨rfl, rfl⟩
  · by_cases h2 : (nextDecision s).action = Action.SELL ∧ 0 < s.shares
    · rw [stepBody_sell h2.1 h2.2]
      exact ⟨rfl, rfl⟩
    · rw [stepBody_noTrade h1 h2]
      exact ⟨rfl, rfl⟩

/-- Witness for C6: the concrete mid-series HOLD step appends one equity
point and advances the index. -/
theorem step_advance_equity_witness :
    (step advanceState).currentIndex = advanceState.currentIndex + 1 ∧
    (step advanceState).equitySeries = advanceState.equitySeries ++
      [⟨nextTs advanceState,
        (step advanceState).cash + (step advanceState).shares * nextPrice advanceState⟩] :=
  step_advance_equity advanceState (by decide)

/-! ## Lemmas about trailing-window extrema -/

lemma le_foldl_max (xs : List Rat) (a : Rat) : a ≤ xs.foldl max a := by
  induction xs generalizing a with
  | nil => exact le_refl a
  | cons y ys ih => exact le_trans (le_max_left a y) (ih (max a y))

lemma mem_le_foldl_max (xs : List Rat) : ∀ (a x : Rat), x ∈ xs → x ≤ xs.foldl max a := by
  induction xs with
  | nil => intro a x hx; cases hx
  | cons y ys ih =>
    intro a x hx
    rcases List.mem_cons.mp hx with h | h
    · subst h
      exact le_trans (le_max_right a x) (le_foldl_max ys (max a x))
    · exact ih (max a y) x h

lemma le_listMax {xs : List Rat} {x : Rat} (hx : x ∈ xs) : x ≤ listMax xs := by
  cases xs with
  | nil => cases hx
  | cons y ys =>
    rcases List.mem_cons.mp hx with h | h
    · subst h
      exact le_foldl_max ys x
    · exact mem_le_foldl_max ys y x h

lemma foldl_min_le (xs : List Rat) (a : Rat) : xs.foldl min a ≤ a := by
  induction xs generalizing a with
  | nil => exact le_refl a
  | cons y ys ih => exact le_trans (ih (min a y)) (min_le_left a y)

lemma foldl_min_le_mem (xs : List Rat) : ∀ (a x : Rat), x ∈ xs → xs.foldl min a ≤ x := by
  induction xs with
  | nil => intro a x hx; cases hx
  | cons y ys ih =>
    intro a x hx
    rcases List.mem_cons.mp hx with h | h
    · subst h
      exact le_trans (foldl_min_le ys (min a x)) (min_le_right a x)
    · exact ih (min a y) x h

lemma listMin_le {xs : List Rat} {x : Rat} (hx : x ∈ xs) : listMin xs ≤ x := by
  cases xs with
  | nil => cases hx
  | cons y ys =>
    rcases List.mem_cons.mp hx with h | h
    · subst h
      exact foldl_min_le ys x
    · exact foldl_min_le_mem ys y x h

lemma getD_mem_windowSlice (xs : List Rat) (i k : Nat) (hi : i < xs.length)
    (hk : 1 ≤ k) : xs.getD i 0 ∈ windowSlice xs i k := by
  have hsl : (windowSlice xs i k)[i - (i + 1 - k)]? = some (xs.getD i 0) := by
    unfold windowSlice
    rw [List.getElem?_drop]
    rw [show i + 1 - k + (i - (i + 1 - k)) = i by omega]
    rw [List.getElem?_take_of_lt (by omega), List.getElem?_eq_getElem hi,
      List.getD_eq_getElem?_getD, List.getElem?_eq_getElem hi]
    rfl
  exact List.getElem?_mem hsl

/-! ## Iteration frame lemmas -/

lemma iterate_candles (n : Nat) (s : SimState) : (step^[n] s).candles = s.candles := by
  induction n generalizing s with
  | zero => rfl
  | succ n ih =>
    rw [Function.iterate_succ_apply]
    rw [ih (step s), step_candles]

lemma iterate_strategyName (n : Nat) (s : SimState) :
    (step^[n] s).strategyName = s.strategyName := by
  induction n generalizing s with
  | zero => rfl
  | succ n ih =>
    rw [Function.iterate_succ_apply]
    rw [ih (step s), step_strategyName]

/-! ## Decision and ledger support lemmas -/

lemma decide_buyAndHold (idx : Nat) (hidx : idx ≠ 0) (candles : List Candle)
    (rsi : List Rat) :
    (decide StrategyName.BUY_AND_HOLD idx candles rsi).action = Action.HOLD := by
  unfold decide
  split
  · rfl
  · simp only [if_neg hidx]

lemma step_buyAndHold_frame (s : SimState)
    (hstrat : s.strategyName = StrategyName.BUY_AND_HOLD) :
    (step s).trades = s.trades ∧ (step s).cash = s.cash ∧ (step s).shares = s.shares := by
  have hd : (nextDecision s).action = Action.HOLD := by
    unfold nextDecision
    rw [hstrat]
    exact decide_buyAndHold _ (Nat.succ_ne_zero _) _ _
  unfold step
  split
  · exact ⟨rfl, rfl, rfl⟩
  · rw [stepBody_noTrade (by rw [hd]; rintro ⟨h, -⟩; cases h)
      (by rw [hd]; rintro ⟨h, -⟩; cases h)]
    exact ⟨rfl, rfl, rfl⟩

lemma step_preserves_nonneg {s : SimState}
    (hprices : ∀ c ∈ s.candles, 0 < c.close)
    (hcash : 0 ≤ s.cash) (hsh : ∃ m : Nat, s.shares = (m : Rat)) :
    0 ≤ (step s).cash ∧ ∃ m : Nat, (step s).shares = (m : Rat) := by
  unfold step
  split
  · exact ⟨hcash, hsh⟩
  · rename_i hend
    have hlt : s.currentIndex + 1 < s.candles.length := by omega
    have hpmem : s.candles.getD (s.currentIndex + 1) default ∈ s.candles := by
      rw [List.getD_eq_getElem?_getD, List.getElem?_eq_getElem hlt]
      exact List.getElem_mem hlt
    have hp : 0 < nextPrice s := hprices _ hpmem
    by_cases h1 : (nextDecision s).action = Action.BUY ∧ nextPrice s ≤ s.cash
    · by_cases h2 : 0 < buyQty s
      · rw [stepBody_buy_pos h1.1 h1.2 h2]
        constructor
        · show 0 ≤ s.cash - (buyQty s : Rat) * nextPrice s
          have hfl : ((buyQty s : Int) : Rat) ≤ s.cash / nextPrice s := Int.floor_le _
          have hmul : ((buyQty s : Int) : Rat) * nextPrice s ≤
              s.cash / nextPrice s * nextPrice s :=
            mul_le_mul_of_nonneg_right hfl hp.le
          rw [div_mul_cancel₀ _ (ne_of_gt hp)] at hmul
          linarith
        · obtain ⟨m, hm⟩ := hsh
          refine ⟨m + (buyQty s).toNat, ?_⟩
          show s.shares + ((buyQty s : Int) : Rat) = ((m + (buyQty s).toNat : Nat) : Rat)
          rw [hm]
          push_cast
          have h4 : (((buyQty s).toNat : Nat) : Rat) = ((buyQty s : Int) : Rat) := by
            exact_mod_cast Int.toNat_of_nonneg h2.le
          rw [h4]
      · rw [stepBody_buy_zero h1.1 h1.2 (not_lt.mp h2)]
        exact ⟨hcash, hsh⟩
    · by_cases h2 : (nextDecision s).action = Action.SELL ∧ 0 < s.shares
      · rw [stepBody_sell h2.1 h2.2]
        constructor
        · show 0 ≤ s.cash + s.shares * nextPrice s
          have hs0 : 0 ≤ s.shares := le_of_lt h2.2
          have := mul_nonneg hs0 hp.le
          linarith
        · exact ⟨0, by norm_num⟩
      · rw [stepBody_noTrade h1 h2]
        exact ⟨hcash, hsh⟩

/-! ## Remaining claims -/

/-- Claim C3 counterexample: with a one-candle window (`kPeriod = 1`),
`highs = [2]`, `lows = [0]`, `closes = [1]`, `%K` at index 0 is `50`
although the trailing window's highest high (2) differs from its lowest
low (0) — the claimed "exactly when" equivalence fails. -/
theorem stochK_fifty_without_flat_window :
    ((computeStochastic [2] [0] [1] 1 3).1)[0]? = some (some 50) ∧
    listMax (windowSlice [2] 0 1) ≠ listMin (windowSlice [0] 0 1) := by
  constructor
  · norm_num [computeStochastic, stochKAt, windowSlice, listMax, listMin, List.range_succ]
  · norm_num [windowSlice, listMax, listMin]

/-- Claim C3 (amended): for candle-shaped inputs — equal lengths and
`low ≤ close ≤ high` pointwise — every defined `%K` value lies in
`[0, 100]`, and whenever the trailing window's highest high equals its
lowest low, `%K = 50`. (The converse of the original "exactly when" fails:
a close at the midpoint of a nondegenerate range also yields 50.) -/
theorem stochK_range (highs lows closes : List Rat) (kPeriod dPeriod : Nat)
    (hk : 1 ≤ kPeriod)
    (hh : highs.length = closes.length) (hl : lows.length = closes.length)
    (hvalid : ∀ i, i < closes.length →
      lows.getD i 0 ≤ closes.getD i 0 ∧ closes.getD i 0 ≤ highs.getD i 0)
    (i : Nat) (v : Rat)
    (hdef : ((computeStochastic highs lows closes kPeriod dPeriod).1)[i]? = some (some v)) :
    0 ≤ v ∧ v ≤ 100 ∧
    (listMax (windowSlice highs i kPeriod) = listMin (windowSlice lows i kPeriod) →
      v = 50) := by
  simp only [computeStochastic] at hdef
  have hi : i < closes.length := by
    by_contra hge
    rw [List.getElem?_eq_none (by simpa using not_lt.mp hge)] at hdef
    cases hdef
  rw [List.getElem?_map, List.getElem?_range hi] at hdef
  simp only [Option.map_some'] at hdef
  have hv := Option.some.inj hdef
  have hki : kPeriod ≤ i + 1 := by
    by_contra hgt
    simp only [stochKAt, if_neg hgt] at hv
    cases hv
  simp only [stochKAt, if_pos hki] at hv
  have hmemH : highs.getD i 0 ∈ windowSlice highs i kPeriod :=
    getD_mem_windowSlice _ _ _ (by omega) hk
  have hmemL : lows.getD i 0 ∈ windowSlice lows i kPeriod :=
    getD_mem_windowSlice _ _ _ (by omega) hk
  have hHi : highs.getD i 0 ≤ listMax (windowSlice highs i kPeriod) := le_listMax hmemH
  have hLo : listMin (windowSlice lows i kPeriod) ≤ lows.getD i 0 := listMin_le hmemL
  obtain ⟨hlc, hch⟩ := hvalid i hi
  have hcHi : closes.getD i 0 ≤ listMax (windowSlice highs i kPeriod) := le_trans hch hHi
  have hLoc : listMin (windowSlice lows i kPeriod) ≤ closes.getD i 0 := le_trans hLo hlc
  by_cases hne : listMax (windowSlice highs i kPeriod) ≠ listMin (windowSlice lows i kPeriod)
  · rw [if_pos hne] at hv
    have hv' := Option.some.inj hv
    have hlt : listMin (windowSlice lows i kPeriod) < listMax (windowSlice highs i kPeriod) :=
      lt_of_le_of_ne (le_trans hLoc hcHi) (Ne.symm hne)
    refine ⟨?_, ?_, fun hEq => absurd hEq hne⟩
    · rw [← hv']
      exact mul_nonneg (div_nonneg (by linarith) (by linarith)) (by norm_num)
    · rw [← hv']
      have h01 : (closes.getD i 0 - listMin (windowSlice lows i kPeriod)) /
          (listMax (windowSlice highs i kPeriod) - listMin (windowSlice lows i kPeriod)) ≤ 1 := by
        rw [div_le_one (by linarith)]
        linarith
      calc (closes.getD i 0 - listMin (windowSlice lows i kPeriod)) /
            (listMax (windowSlice highs i kPeriod) - listMin (windowSlice lows i kPeriod)) * 100
          ≤ 1 * 100 := mul_le_mul_of_nonneg_right h01 (by norm_num)
        _ = 100 := one_mul 100
  · rw [if_neg hne] at hv
    have hv' := Option.some.inj hv
    exact ⟨by rw [← hv']; norm_num, by rw [← hv']; norm_num, fun _ => hv'.symm⟩

/-- Witness for the amended C3 at `highs = [4]`, `lows = [0]`,
`closes = [1]`, `kPeriod = 1`: the defined `%K` value 25 is in range. -/
theorem stochK_range_witness :
    (0 : Rat) ≤ 25 ∧ (25 : Rat) ≤ 100 ∧
    (listMax (windowSlice [4] 0 1) = listMin (windowSlice [0] 0 1) → (25 : Rat) = 50) :=
  stochK_range [4] [0] [1] 1 3 (by norm_num) rfl rfl
    (by
      intro i hi
      have h0 : i = 0 := by
        simp only [List.length_cons, List.length_nil] at hi
        omega
      subst h0
      norm_num)
    0 25
    (by norm_num [computeStochastic, stochKAt, windowSlice, listMax, listMin, List.range_succ])

/-- Claim C4 counterexample: on the empty candle series, `reset` leaves an
empty equity series (zero points), not the claimed single seed point. -/
theorem reset_empty_cex : (reset emptyState).equitySeries.length ≠ 1 := by decide

/-- Claim C4 (amended): `reset` always clears the trade log and restores
`cash = 10000`, `shares = 0`; for a nonempty candle series the equity
series becomes exactly one seed point of value 10000 at the warm-up start
index, but for the empty series it becomes empty. -/
theorem reset_spec (s : SimState) :
    (reset s).trades = [] ∧ (reset s).cash = 10000 ∧ (reset s).shares = 0 ∧
    (s.candles ≠ [] → (reset s).equitySeries =
      [⟨(s.candles.getD (warmupStart s.candles) default).timestamp, 10000⟩]) ∧
    (s.candles = [] → (reset s).equitySeries = []) := by
  refine ⟨rfl, rfl, rfl, fun hne => ?_, fun he => ?_⟩
  · show (if s.candles.length ≠ 0 then _ else _) = _
    rw [if_pos (fun h => hne (List.length_eq_zero.mp h))]
  · show (if s.candles.length ≠ 0 then _ else _) = _
    rw [if_neg (by rw [he]; simp)]

/-- Witness for the amended C4: resetting the concrete one-candle state
clears the trades and reseeds the equity series with one 10000 point. -/
theorem reset_spec_witness :
    (reset resetState).trades = [] ∧ (reset resetState).cash = 10000 ∧
    (reset resetState).equitySeries = [⟨"t0", 10000⟩] := by
  have h := reset_spec resetState
  refine ⟨h.1, h.2.1, ?_⟩
  have h4 := h.2.2.2.1 (by decide)
  rw [h4]
  rfl

/-- Supporting lemma: for strictly positive closes — the regime where the
rational model of the ledger arithmetic is faithful to the source — `reset`
followed by any number of `step`s keeps `cash ≥ 0`, `shares ≥ 0`, and
`shares` a (natural) integer. At a zero close the source itself breaks
this invariant; see the zero-price development below. -/
lemma portfolio_invariant_pos (s : SimState) (n : Nat)
    (hprices : ∀ c ∈ s.candles, 0 < c.close) :
    0 ≤ (step^[n] (reset s)).cash ∧ 0 ≤ (step^[n] (reset s)).shares ∧
    ∃ m : Nat, (step^[n] (reset s)).shares = (m : Rat) := by
  have key : ∀ k : Nat, 0 ≤ (step^[k] (reset s)).cash ∧
      ∃ m : Nat, (step^[k] (reset s)).shares = (m : Rat) := by
    intro k
    induction k with
    | zero => exact ⟨by norm_num [reset], 0, by norm_num [reset]⟩
    | succ k ih =>
      rw [Function.iterate_succ_apply']
      apply step_preserves_nonneg ?_ ih.1 ih.2
      rw [iterate_candles]
      show ∀ c ∈ (reset s).candles, 0 < c.close
      exact hprices
  obtain ⟨h1, m, hm⟩ := key n
  refine ⟨h1, ?_, m, hm⟩
  rw [hm]
  positivity

/-- Claim C7 (code bug): the claimed invariant — `cash ≥ 0` and integer
`shares` for every reachable state over nonnegative finite prices — is
broken by the source at a zero-price candle, which its own data-model
invariants say should never happen. At the failing input (Bollinger BUY at
price 0 with cash 10000, as in the zero-price candle pair above), the
post-step cash `10000 − Math.floor(10000/0)·0` is `NaN`, which fails the
`0 ≤ cash` check, and the post-step shares `0 + Math.floor(10000/0)` are
`Infinity`, not a natural number. -/
theorem portfolio_invariant_zero_price_bug :
    jsLe (JSNum.fin 0)
      (jsSub (JSNum.fin 10000)
        (jsMul (jsFloor (jsDiv (JSNum.fin 10000) (JSNum.fin 0))) (JSNum.fin 0))) = false ∧
    jsAdd (JSNum.fin 0) (jsFloor (jsDiv (JSNum.fin 10000) (JSNum.fin 0))) =
      JSNum.posInf := by
  refine ⟨by decide, by decide⟩

/-- Claim C8: the SMA-crossover, EMA-crossover and MACD strategies return
HOLD whenever either required indicator value is undefined on the current
or previous candle (including when no previous candle exists). -/
theorem crossover_requires_defined (candles : List Candle) (rsi : List Rat) (idx : Nat) :
    (crossInputsDefined Candle.smaShort Candle.smaLong candles idx = false →
      (decide StrategyName.SMA_CROSSOVER idx candles rsi).action = Action.HOLD) ∧
    (crossInputsDefined Candle.emaShort Candle.emaLong candles idx = false →
      (decide StrategyName.EMA_CROSSOVER idx candles rsi).action = Action.HOLD) ∧
    (crossInputsDefined Candle.macdLine Candle.macdSignal candles idx = false →
      (decide StrategyName.MACD idx candles rsi).action = Action.HOLD) := by
  refine ⟨fun hund => ?_, fun hund => ?_, fun hund => ?_⟩ <;>
    · unfold decide
      split
      · rfl
      · rename_i c hc
        dsimp only
        split
        · rename_i cs cl ps pl hcs hcl hps hpl
          exfalso
          obtain ⟨p, hp, hps2⟩ := Option.bind_eq_some.mp hps
          rw [hp] at hpl
          simp only [Option.some_bind] at hpl
          unfold crossInputsDefined at hund
          rw [hc, hp] at hund
          simp [hcs, hcl, hps2, hpl] at hund
        · rfl

/-- Witness for C8: at index 0 (no previous candle) each crossover
strategy holds. -/
theorem crossover_requires_defined_witness :
    (decide StrategyName.SMA_CROSSOVER 0 [] []).action = Action.HOLD ∧
    (decide StrategyName.EMA_CROSSOVER 0 [] []).action = Action.HOLD ∧
    (decide StrategyName.MACD 0 [] []).action = Action.HOLD := by
  have h := crossover_requires_defined [] [] 0
  exact ⟨h.1 (by decide), h.2.1 (by decide), h.2.2 (by decide)⟩

/-- Claim C9: replay is deterministic — two states agreeing on the candle
series, the RSI series and the strategy produce identical trade logs and
equity curves after `reset` followed by any number of `step`s; nothing
else (portfolio, history, explanation) can influence the run. -/
theorem deterministic_replay (s₁ s₂ : SimState) (n : Nat)
    (hc : s₁.candles = s₂.candles) (hr : s₁.rsiSeries = s₂.rsiSeries)
    (hs : s₁.strategyName = s₂.strategyName) :
    (step^[n] (reset s₁)).trades = (step^[n] (reset s₂)).trades ∧
    (step^[n] (reset s₁)).equitySeries = (step^[n] (reset s₂)).equitySeries := by
  have hreset : reset s₁ = reset s₂ := by
    cases s₁
    cases s₂
    dsimp only at hc hr hs
    subst hc
    subst hr
    subst hs
    rfl
  rw [hreset]
  exact ⟨rfl, rfl⟩

/-- Witness for C9: the two concrete states sharing series and strategy
but with different portfolios replay identically for one step. -/
theorem deterministic_replay_witness :
    (step^[1] (reset replayStateA)).trades = (step^[1] (reset replayStateB)).trades ∧
    (step^[1] (reset replayStateA)).equitySeries =
      (step^[1] (reset replayStateB)).equitySeries :=
  deterministic_replay replayStateA replayStateB 1 rfl rfl rfl

/-- Claim C10: under the Buy & Hold strategy no trade is ever recorded
after a reset — the decision is always evaluated at an index `≥ 1` while
the strategy only buys at index 0 — so the trade log stays empty and cash
and shares keep their initial values. -/
theorem buyAndHold_no_trades (s : SimState) (n : Nat)
    (hstrat : s.strategyName = StrategyName.BUY_AND_HOLD) :
    (step^[n] (reset s)).trades = [] ∧ (step^[n] (reset s)).cash = 10000 ∧
    (step^[n] (reset s)).shares = 0 := by
  induction n with
  | zero => exact ⟨rfl, rfl, rfl⟩
  | succ n ih =>
    rw [Function.iterate_succ_apply']
    have hstrat' : (step^[n] (reset s)).strategyName = StrategyName.BUY_AND_HOLD := by
      rw [iterate_strategyName]
      show s.strategyName = _
      exact hstrat
    obtain ⟨h1, h2, h3⟩ := step_buyAndHold_frame _ hstrat'
    rw [h1, h2, h3]
    exact ih

/-- Witness for C10: two Buy & Hold steps from the reset concrete state
leave the trade log empty and the portfolio at its initial values. -/
theorem buyAndHold_no_trades_witness :
    (step^[2] (reset bahState)).trades = [] ∧ (step^[2] (reset bahState)).cash = 10000 ∧
    (step^[2] (reset bahState)).shares = 0 :=
  buyAndHold_no_trades bahState 2 rfl

end TradingSim
